import Mathlib

/-!
Shallow embedding of `ccdc/thirdparty/package.py` (the Package build
orchestration base class of the ccdc-custom-build-qwt repository), together
with theorems settling the specification claims about it.

The embedding models:
  * the ambient system state (`SysEnv`): `sys.platform`, the process
    environment, and the results of the distribution probes the code makes
    (`/etc/centos-release` existence, `/etc/debian_version` existence,
    `lsb_release` / `rpm` outputs);
  * a `Package` value: the per-package identity and naming flags;
  * the pure path / name computations (`platform`, `output_base_name`,
    `install_directory`, `output_archive_filename`, `toolbase`, ...);
  * the command-issuing procedures (`extract_archive`, `create_archive`,
    `fetch_source_archives`, `build`) as functions that, given an oracle
    describing which external commands succeed, return the list of commands
    actually executed together with the outcome (success or the Python
    exception that propagates).

Paths are modelled as lists of components (`pathlib.Path` parts).
-/

/-- Errors that Python code in `package.py` can raise and that matter to the
claims: `TypeError` (e.g. joining a list containing `None`, or list + str
concatenation), `AttributeError` (the unsupported-archive-format raise),
`CalledProcessError` (a shelled-out command exited non-zero), and a generic
`Exception` with a message. -/
inductive PyErr where
  | typeError
  | attributeError
  | calledProcessError
  | exception (msg : String)
deriving DecidableEq, Repr

/-- The ambient system state that `package.py` consults: `sys.platform`, the
process environment (`os.environ`, as an association list), and the results
of the distribution probes (`Path('/etc/centos-release').exists()`,
`Path('/etc/debian_version').exists()`, whether `lsb_release -i -s` prints
`Ubuntu`, and the strings printed by `rpm -E %rhel` and `lsb_release -r -s`). -/
structure SysEnv where
  sys_platform : String
  env : List (String × String)
  centos_release_exists : Bool
  debian_version_exists : Bool
  lsb_release_is_ubuntu : Bool
  centos_major_version_str : String
  ubuntu_version_str : String
deriving Repr

/-- Lookup in the modelled `os.environ`; `none` means the variable is unset. -/
def envLookup (env : List (String × String)) (key : String) : Option String :=
  (env.find? (fun kv => kv.1 == key)).map (fun kv => kv.2)

/-- Python's `str.startswith`, over the character list of the string. -/
def strStartsWith (s pre : String) : Bool :=
  s.data.take pre.data.length == pre.data

/-- Split a character list on a separator character (Python `str.split`). -/
def splitOnChar (sep : Char) : List Char → List (List Char)
  | [] => [[]]
  | c :: cs =>
    let r := splitOnChar sep cs
    if c == sep then [] :: r
    else
      match r with
      | [] => [[c]]
      | h :: t => (c :: h) :: t

/-- `pathlib.PurePath.suffixes` of a file name: empty for a name ending in a
dot, otherwise one dotted suffix per `.`-separated part after the first,
leading dots stripped first (so `foo.tar.gz ↦ [.tar, .gz]`, `.bashrc ↦ []`). -/
def pathSuffixes (name : String) : List String :=
  if name.data.getLast? == some '.' then []
  else
    let cs := name.data.dropWhile (fun c => c == '.')
    ((splitOnChar '.' cs).drop 1).map (fun l => String.mk ('.' :: l))

/-- The per-package data of the `Package` base class: identity (`name`,
`version`) and the two naming flags set in `__init__`. -/
structure Package where
  name : String
  version : String
  use_vs_version_in_base_name : Bool := true
  use_distribution_in_base_name : Bool := false
deriving Repr

/-- `Package.macos`: `sys.platform == 'darwin'`. -/
def macos (s : SysEnv) : Bool := s.sys_platform == "darwin"

/-- `Package.windows`: `sys.platform == 'win32'`. -/
def windows (s : SysEnv) : Bool := s.sys_platform == "win32"

/-- `Package.linux`: `sys.platform.startswith('linux')`. -/
def linux (s : SysEnv) : Bool := strStartsWith s.sys_platform "linux"

/-- `Package.centos`: linux and `/etc/centos-release` exists. -/
def centos (s : SysEnv) : Bool := linux s && s.centos_release_exists

/-- `Package.debian`: linux and `/etc/debian_version` exists. -/
def debian (s : SysEnv) : Bool := linux s && s.debian_version_exists

/-- `Package.ubuntu`: debian and `lsb_release -i -s` prints `Ubuntu`. -/
def ubuntu (s : SysEnv) : Bool := debian s && s.lsb_release_is_ubuntu

/-- `Package.platform` (property): returns `sys.platform` unless
`use_distribution_in_base_name` is set and the host is linux, in which case
it returns a centos/ubuntu string — and falls off the end of the function
(Python `None`, modelled as `Option.none`) when the linux host is neither. -/
def platform (p : Package) (s : SysEnv) : Option String :=
  if !p.use_distribution_in_base_name then some s.sys_platform
  else if !linux s then some s.sys_platform
  else if centos s then some ("centos" ++ s.centos_major_version_str)
  else if ubuntu s then some ("ubuntu" ++ s.ubuntu_version_str)
  else none

/-- `Package.output_base_name`: joins name, version, the CI build number (or
the developer placeholder), the platform string, and optionally the VS
version, with `-`. When `platform` is `None`, `'-'.join` raises `TypeError`. -/
def output_base_name (p : Package) (s : SysEnv) : Except PyErr String :=
  match platform p s with
  | none => Except.error PyErr.typeError
  | some plat =>
    let buildnum :=
      match envLookup s.env "BUILD_BUILDNUMBER" with
      | some v => v
      | none => "do-not-use-me-developer-version"
    let components := [p.name, p.version, buildnum, plat]
    let components :=
      if p.use_vs_version_in_base_name then
        match envLookup s.env "BUILD_VS_VERSION" with
        | some v => components ++ ["vs" ++ v]
        | none => components
      else components
    Except.ok (String.intercalate "-" components)

/-- `Package.toolbase`: `D:\x_mirror\buildman\tools` on Windows, otherwise
`/opt/ccdc/third-party` (as path components; `""` is the Unix root). -/
def toolbase (s : SysEnv) : List String :=
  if windows s then ["D:", "x_mirror", "buildman", "tools"]
  else ["", "opt", "ccdc", "third-party"]

/-- `Package.source_builds_base`: `D:\tp\builds` on Windows, otherwise
`/opt/ccdc/third-party-sources/builds`. -/
def source_builds_base (s : SysEnv) : List String :=
  if windows s then ["D:", "tp", "builds"]
  else ["", "opt", "ccdc", "third-party-sources", "builds"]

/-- `Package.install_directory`: `toolbase / name / output_base_name`; a
`TypeError` from `output_base_name` propagates. -/
def install_directory (p : Package) (s : SysEnv) : Except PyErr (List String) :=
  (output_base_name p s).map (fun b => toolbase s ++ [p.name, b])

/-- `Package.output_archive_filename`: `f'{output_base_name}.tar.gz'`. -/
def output_archive_filename (p : Package) (s : SysEnv) : Except PyErr String :=
  (output_base_name p s).map (fun b => b ++ ".tar.gz")

/-- An external command that `extract_archive` can issue: `unzip -q -o path`
in the target directory, `7z x -aoa -o<dest> path`, or
`tar [--force-local] <flags> path` in the target directory. -/
inductive XCmd where
  | unzip (path : String) (cwd : List String)
  | sevenZ (path : String) (dest : List String)
  | tar (forceLocal : Bool) (flags : List String) (path : String) (cwd : List String)
deriving DecidableEq, Repr

/-- Outcome of a call to `extract_archive`: normal return, a
`CalledProcessError` propagating from a failed command, the
`AttributeError` raised for an unsupported suffix, or the `TypeError`
raised by the `['tar', '--force-local'] + f'-{flags}'` list-plus-string
concatenation on the Windows branch. -/
inductive XOutcome where
  | success
  | processError (c : XCmd)
  | attributeError
  | typeError
deriving DecidableEq, Repr

/-- The `if/elif` suffix chain of `extract_archive` that selects tar flags:
`.bz2 ↦ jxf`, `.gz ↦ zxf`, `.tgz ↦ zxf`, `.xz ↦ xf`,
`.zst ↦ --use-compress-program=zstd -xf`; `none` means the final `else`
(`raise AttributeError`) is reached. -/
def tarFlags (sfx : List String) : Option (List String) :=
  if sfx.contains ".bz2" then some ["jxf"]
  else if sfx.contains ".gz" then some ["zxf"]
  else if sfx.contains ".tgz" then some ["zxf"]
  else if sfx.contains ".xz" then some ["xf"]
  else if sfx.contains ".zst" then some ["--use-compress-program=zstd", "-xf"]
  else none

/-- `Package.extract_archive(path, where)`. Given the platform flag, the
file name of the archive, the target directory and an oracle `ok` saying
which external commands exit with status 0, returns the list of commands
actually executed and the outcome. Faithful to the source, including:
the `.zip` branch returns; the `.7z` branch does NOT return and falls
through to the tar-suffix chain; and on Windows the expression
`['tar', '--force-local'] + f'-{flags}'` concatenates a list with a string
and raises `TypeError` before any tar command runs (the `except` clause
only catches `CalledProcessError`, so the `TypeError` propagates). -/
def extract_archive (winPlatform : Bool) (path : String) (dest : List String)
    (ok : XCmd → Bool) : List XCmd × XOutcome :=
  let sfx := pathSuffixes path
  if sfx.contains ".zip" then
    let c := XCmd.unzip path dest
    ([c], if ok c then XOutcome.success else XOutcome.processError c)
  else
    let pre : List XCmd × Option XCmd :=
      if sfx.contains ".7z" then
        let c := XCmd.sevenZ path dest
        ([c], if ok c then none else some c)
      else ([], none)
    match pre with
    | (done, some failed) => (done, XOutcome.processError failed)
    | (done, none) =>
      match tarFlags sfx with
      | none => (done, XOutcome.attributeError)
      | some flags =>
        if winPlatform then (done, XOutcome.typeError)
        else
          let c := XCmd.tar false flags path dest
          (done ++ [c], if ok c then XOutcome.success else XOutcome.processError c)

/-- The qwt package of the example scenario: name `qwt`, version `6.1.4`,
default flags from `Package.__init__`. -/
def qwtPackage : Package := { name := "qwt", version := "6.1.4" }

/-- A plain linux environment with no CI variables set. -/
def plainLinuxEnv : SysEnv :=
  { sys_platform := "linux"
    env := []
    centos_release_exists := false
    debian_version_exists := false
    lsb_release_is_ubuntu := false
    centos_major_version_str := ""
    ubuntu_version_str := "" }

/-- `CMakeMixin.visual_studio_generator_for_build`: defaults to the 2019
generator when `BUILD_VS_VERSION` is unset, maps `2019` and `2017` to their
generator strings, and raises on any other value. -/
def visual_studio_generator_for_build (env : List (String × String)) :
    Except PyErr String :=
  match envLookup env "BUILD_VS_VERSION" with
  | none => Except.ok "Visual Studio 16 2019"
  | some v =>
    if v == "2019" then Except.ok "Visual Studio 16 2019"
    else if v == "2017" then Except.ok "Visual Studio 15 2017"
    else Except.error (PyErr.exception ("Invalid value for BUILD_VS_VERSION: " ++ v))

/-- C5: with name `qwt`, version `6.1.4`, `sys.platform = "linux"`, default
flags, and neither `BUILD_BUILDNUMBER` nor `BUILD_VS_VERSION` set,
`output_base_name` is `qwt-6.1.4-do-not-use-me-developer-version-linux`. -/
theorem qwt_output_base_name_example :
    output_base_name qwtPackage plainLinuxEnv =
      Except.ok "qwt-6.1.4-do-not-use-me-developer-version-linux" := by
  rfl

/-- C10: when `use_distribution_in_base_name` is set, the host is linux, but
`/etc/centos-release` does not exist and the host is not Debian-with-Ubuntu,
`platform` falls off the end of the conditional chain (returns `None`), and
`output_base_name` consequently raises `TypeError` from `'-'.join`. -/
theorem platform_none_output_base_name_type_error (p : Package) (s : SysEnv)
    (hdist : p.use_distribution_in_base_name = true)
    (hlinux : linux s = true)
    (hcentos : s.centos_release_exists = false)
    (hubuntu : ubuntu s = false) :
    platform p s = none ∧ output_base_name p s = Except.error PyErr.typeError := by
  have hplat : platform p s = none := by
    simp [platform, hdist, hlinux, centos, hcentos, hubuntu]
  exact ⟨hplat, by simp [output_base_name, hplat]⟩

/-- Witness for C10: a concrete linux environment (say, a plain Debian host
where `lsb_release` does not print Ubuntu) with distribution naming enabled. -/
theorem platform_none_output_base_name_type_error_witness :
    platform { name := "qwt", version := "6.1.4",
               use_distribution_in_base_name := true }
        { plainLinuxEnv with debian_version_exists := true } = none ∧
      output_base_name { name := "qwt", version := "6.1.4",
                         use_distribution_in_base_name := true }
        { plainLinuxEnv with debian_version_exists := true } =
        Except.error PyErr.typeError :=
  platform_none_output_base_name_type_error _ _ rfl rfl rfl rfl

/-- C6: `visual_studio_generator_for_build` returns `Visual Studio 15 2017`
for `BUILD_VS_VERSION=2017`, the 2019 default both when the variable is unset
and when it is `2019`, and raises an exception on any other value. -/
theorem visual_studio_generator_cases :
    visual_studio_generator_for_build [("BUILD_VS_VERSION", "2017")] =
        Except.ok "Visual Studio 15 2017" ∧
      visual_studio_generator_for_build [] = Except.ok "Visual Studio 16 2019" ∧
      visual_studio_generator_for_build [("BUILD_VS_VERSION", "2019")] =
        Except.ok "Visual Studio 16 2019" ∧
      ∀ (env : List (String × String)) (v : String),
        envLookup env "BUILD_VS_VERSION" = some v → v ≠ "2019" → v ≠ "2017" →
        visual_studio_generator_for_build env =
          Except.error (PyErr.exception ("Invalid value for BUILD_VS_VERSION: " ++ v)) := by
  refine ⟨rfl, rfl, rfl, ?_⟩
  intro env v hv h19 h17
  simp [visual_studio_generator_for_build, hv, h19, h17]

/-- Witness for C6: `BUILD_VS_VERSION=2016` raises the invalid-value
exception. -/
theorem visual_studio_generator_cases_witness :
    visual_studio_generator_for_build [("BUILD_VS_VERSION", "2016")] =
      Except.error (PyErr.exception "Invalid value for BUILD_VS_VERSION: 2016") :=
  visual_studio_generator_cases.2.2.2 [("BUILD_VS_VERSION", "2016")] "2016"
    rfl (by decide) (by decide)

/-- C7: whenever `output_base_name` yields a string `b`, `install_directory`
is exactly `toolbase / name / b` — its parent is `toolbase / name` and its
last component is `b` — and the output archive filename is `b ++ ".tar.gz"`. -/
theorem install_directory_structure (p : Package) (s : SysEnv) (b : String)
    (hb : output_base_name p s = Except.ok b) :
    install_directory p s = Except.ok (toolbase s ++ [p.name, b]) ∧
      (toolbase s ++ [p.name, b]).dropLast = toolbase s ++ [p.name] ∧
      (toolbase s ++ [p.name, b]).getLast? = some b ∧
      output_archive_filename p s = Except.ok (b ++ ".tar.gz") := by
  refine ⟨by simp [install_directory, hb, Except.map], ?_, ?_,
    by simp [output_archive_filename, hb, Except.map]⟩
  · have : toolbase s ++ [p.name, b] = (toolbase s ++ [p.name]) ++ [b] := by simp
    rw [this, List.dropLast_concat]
  · have : toolbase s ++ [p.name, b] = (toolbase s ++ [p.name]) ++ [b] := by simp
    rw [this, List.getLast?_concat]

/-- Witness for C7: the qwt package on the plain linux environment. -/
theorem install_directory_structure_witness :
    install_directory qwtPackage plainLinuxEnv =
        Except.ok ["", "opt", "ccdc", "third-party", "qwt",
          "qwt-6.1.4-do-not-use-me-developer-version-linux"] ∧
      output_archive_filename qwtPackage plainLinuxEnv =
        Except.ok "qwt-6.1.4-do-not-use-me-developer-version-linux.tar.gz" := by
  have h := install_directory_structure qwtPackage plainLinuxEnv
    "qwt-6.1.4-do-not-use-me-developer-version-linux" (by rfl)
  exact ⟨h.1, h.2.2.2⟩

/-- C1: on the Windows platform, for a tar-based suffix the code never runs
tar at all: `flags = f'-{flags}'` turns the flag list into a string, so
`['tar', '--force-local'] + flags` raises `TypeError`, which the
`except subprocess.CalledProcessError` clause does not catch. No command is
executed and no retry happens, contradicting the documented
force-local-then-retry behavior. -/
theorem windows_tar_extraction_type_error (dest : List String) (ok : XCmd → Bool) :
    extract_archive true "foo.tar.bz2" dest ok = ([], XOutcome.typeError) := rfl

/-- Counterexample to C2: for the archive `foo.7z` (with every command
succeeding), `extract_archive` runs the 7z tool but then falls through the
tar-suffix chain and raises the unsupported-format `AttributeError` — it does
not return without raising. -/
theorem sevenz_only_archive_raises :
    extract_archive false "foo.7z" ["dest"] (fun _ => true) =
      ([XCmd.sevenZ "foo.7z" ["dest"]], XOutcome.attributeError) := rfl

/-- C2 (amended): for an archive whose suffixes include `.7z` but no `.zip`
and no tar-recognized suffix, `extract_archive` dispatches to the 7z tool to
extract into the target directory, and then — because the `.7z` branch does
not return — reaches the end of the suffix chain and raises the
unsupported-format `AttributeError` instead of returning normally. -/
theorem sevenz_dispatch_then_unsupported_error (w : Bool) (path : String)
    (dest : List String) (ok : XCmd → Bool)
    (hzip : ".zip" ∉ pathSuffixes path)
    (h7z : ".7z" ∈ pathSuffixes path)
    (hflags : tarFlags (pathSuffixes path) = none)
    (hok : ok (XCmd.sevenZ path dest) = true) :
    extract_archive w path dest ok =
      ([XCmd.sevenZ path dest], XOutcome.attributeError) := by
  simp [extract_archive, hzip, h7z, hflags, hok]

/-- Witness for C2's amended theorem at the archive `foo.7z`, with an oracle
under which only the 7z command succeeds. -/
theorem sevenz_dispatch_then_unsupported_error_witness :
    extract_archive false "foo.7z" ["dest"]
        (fun c => match c with | XCmd.sevenZ _ _ => true | _ => false) =
      ([XCmd.sevenZ "foo.7z" ["dest"]], XOutcome.attributeError) := by
  have h := sevenz_dispatch_then_unsupported_error false "foo.7z" ["dest"]
    (fun c => match c with | XCmd.sevenZ _ _ => true | _ => false)
  exact h (by decide) (by decide) rfl rfl

/-- C4: `extract_archive` dispatches by suffix — `.zip` runs unzip in the
target directory; `.bz2` runs `tar jxf`; `.gz`/`.tgz` run `tar zxf` (in
particular `foo.tar.gz` dispatches to `tar zxf foo.tar.gz` in the target
directory); `.xz` runs `tar xf`; `.zst` runs tar with the zstd
compress-program flag; and a path with none of the recognized suffixes
raises the unsupported-format `AttributeError`. -/
theorem extract_archive_suffix_dispatch :
    (∀ (path : String) (dest : List String) (ok : XCmd → Bool),
        ".zip" ∈ pathSuffixes path →
        (extract_archive false path dest ok).1 = [XCmd.unzip path dest]) ∧
      (∀ (dest : List String) (ok : XCmd → Bool),
        (extract_archive false "a.tar.bz2" dest ok).1 =
            [XCmd.tar false ["jxf"] "a.tar.bz2" dest] ∧
          (extract_archive false "foo.tar.gz" dest ok).1 =
            [XCmd.tar false ["zxf"] "foo.tar.gz" dest] ∧
          (extract_archive false "a.tgz" dest ok).1 =
            [XCmd.tar false ["zxf"] "a.tgz" dest] ∧
          (extract_archive false "a.tar.xz" dest ok).1 =
            [XCmd.tar false ["xf"] "a.tar.xz" dest] ∧
          (extract_archive false "a.tar.zst" dest ok).1 =
            [XCmd.tar false ["--use-compress-program=zstd", "-xf"] "a.tar.zst" dest]) ∧
      (∀ (w : Bool) (path : String) (dest : List String) (ok : XCmd → Bool),
        ".zip" ∉ pathSuffixes path → ".7z" ∉ pathSuffixes path →
        ".bz2" ∉ pathSuffixes path → ".gz" ∉ pathSuffixes path →
        ".tgz" ∉ pathSuffixes path → ".xz" ∉ pathSuffixes path →
        ".zst" ∉ pathSuffixes path →
        extract_archive w path dest ok = ([], XOutcome.attributeError)) := by
  refine ⟨?_, ?_, ?_⟩
  · intro path dest ok h
    simp [extract_archive, h]
  · intro dest ok
    exact ⟨rfl, rfl, rfl, rfl, rfl⟩
  · intro w path dest ok h1 h2 h3 h4 h5 h6 h7
    simp [extract_archive, tarFlags, h1, h2, h3, h4, h5, h6, h7]

/-- Witness for C4: a `.zip` archive runs unzip, and a `.txt` archive raises
the unsupported-format error. -/
theorem extract_archive_suffix_dispatch_witness :
    (extract_archive false "a.zip" ["d"] (fun _ => true)).1 =
        [XCmd.unzip "a.zip" ["d"]] ∧
      extract_archive true "a.txt" ["d"] (fun _ => true) =
        ([], XOutcome.attributeError) :=
  ⟨extract_archive_suffix_dispatch.1 "a.zip" ["d"] (fun _ => true) (by decide),
   extract_archive_suffix_dispatch.2.2 true "a.txt" ["d"] (fun _ => true)
     (by decide) (by decide) (by decide) (by decide) (by decide) (by decide)
     (by decide)⟩

/-- The pipeline stages that `Package.build` invokes, named after the
methods it calls. -/
inductive Stage where
  | cleanup
  | fetch_source_archives_stage
  | extract_source_archives_stage
  | patch_sources
  | run_configuration_script
  | run_build_command
  | run_install_command
  | verify
  | create_archive_stage
deriving DecidableEq, Repr

/-- The fixed order in which `Package.build` calls its stages. -/
def stageOrder : List Stage :=
  [Stage.cleanup, Stage.fetch_source_archives_stage,
   Stage.extract_source_archives_stage, Stage.patch_sources,
   Stage.run_configuration_script, Stage.run_build_command,
   Stage.run_install_command, Stage.verify, Stage.create_archive_stage]

/-- Run a list of stages in order, given an oracle `ok` saying which stages
return normally (`true`) and which raise (`false`). Returns the stages that
actually executed (including a raising one, which ran before raising) and
whether the whole run completed. A raising stage aborts the run: nothing
after it executes, and there is no retry. -/
def runStages (ok : Stage → Bool) : List Stage → List Stage × Bool
  | [] => ([], true)
  | s :: rest =>
    if ok s then
      let r := runStages ok rest
      (s :: r.1, r.2)
    else ([s], false)

/-- `Package.build`: the nine stages in their fixed source order. -/
def build (ok : Stage → Bool) : List Stage × Bool := runStages ok stageOrder

/-- The trace of a run is always an initial segment of the stage list. -/
theorem runStages_initial_segment (ok : Stage → Bool) :
    ∀ l : List Stage, ∃ t, (runStages ok l).1 ++ t = l := by
  intro l
  induction l with
  | nil => exact ⟨[], rfl⟩
  | cons s rest ih =>
    by_cases h : ok s = true
    · obtain ⟨t, ht⟩ := ih
      exact ⟨t, by simp [runStages, h, ht]⟩
    · exact ⟨rest, by simp [runStages, h]⟩

/-- Any stage in the trace of a run was in the stage list. -/
theorem runStages_mem (ok : Stage → Bool) :
    ∀ (l : List Stage) (s : Stage), s ∈ (runStages ok l).1 → s ∈ l := by
  intro l
  induction l with
  | nil => intro s h; simp [runStages] at h
  | cons a rest ih =>
    intro s h
    by_cases ha : ok a = true
    · simp [runStages, ha] at h
      rcases h with h | h
      · simp [h]
      · exact List.mem_cons_of_mem a (ih s h)
    · simp [runStages, ha] at h
      simp [h]

/-- A stage strictly after a raising stage in the list never executes. -/
theorem runStages_not_after_failure (ok : Stage → Bool) :
    ∀ (l1 l2 : List Stage) (f s : Stage), ok f = false → s ∈ l2 → f ∉ l1 →
      s ∉ (runStages ok (l1 ++ f :: l2)).1 ∨ s ∈ l1 ∨ s = f := by
  intro l1
  induction l1 with
  | nil =>
    intro l2 f s hf hs _
    by_cases hsf : s = f
    · exact Or.inr (Or.inr hsf)
    · left
      simp [runStages, hf]
      exact fun h => hsf h
  | cons a rest ih =>
    intro l2 f s hf hs hfl
    have hfa : f ≠ a := by
      intro h
      exact hfl (by simp [h])
    have hfrest : f ∉ rest := fun h => hfl (List.mem_cons_of_mem a h)
    by_cases ha : ok a = true
    · rcases ih l2 f s hf hs hfrest with h | h | h
      · by_cases hsa : s = a
        · exact Or.inr (Or.inl (by simp [hsa]))
        · left
          simp [runStages, ha]
          exact ⟨fun hh => hsa hh, h⟩
      · exact Or.inr (Or.inl (List.mem_cons_of_mem a h))
      · exact Or.inr (Or.inr h)
    · by_cases hsa : s = a
      · exact Or.inr (Or.inl (by simp [hsa]))
      · left
        have : ok a = false := by
          cases hh : ok a
          · rfl
          · exact absurd hh ha
        simp [runStages, this]
        exact fun hh => hsa hh

/-- C3: `build()` runs exactly the stages cleanup, fetch_source_archives,
extract_source_archives, patch_sources, run_configuration_script,
run_build_command, run_install_command, verify, create_archive, in that
fixed order; when every stage succeeds the trace is exactly that list; the
trace is always an initial segment of it (no retries, no reordering); and
if `run_configuration_script` raises then `run_build_command` never
executes. -/
theorem build_stage_order_and_abort :
    (∀ ok : Stage → Bool, (∀ s, ok s = true) → build ok = (stageOrder, true)) ∧
      (∀ ok : Stage → Bool, ∃ t, (build ok).1 ++ t = stageOrder) ∧
      (∀ ok : Stage → Bool, ok Stage.run_configuration_script = false →
        Stage.run_build_command ∉ (build ok).1) := by
  refine ⟨?_, ?_, ?_⟩
  · intro ok h
    simp [build, stageOrder, runStages, h]
  · intro ok
    exact runStages_initial_segment ok stageOrder
  · intro ok h
    have key := runStages_not_after_failure ok
      [Stage.cleanup, Stage.fetch_source_archives_stage,
       Stage.extract_source_archives_stage, Stage.patch_sources]
      [Stage.run_build_command, Stage.run_install_command, Stage.verify,
       Stage.create_archive_stage]
      Stage.run_configuration_script Stage.run_build_command h
      (by decide) (by decide)
    rcases key with k | k | k
    · exact k
    · exact absurd k (by decide)
    · exact absurd k (by decide)

/-- Witness for C3: with every stage succeeding the trace is the full stage
list, and with a raising configuration script `run_build_command` is absent
from the trace. -/
theorem build_stage_order_and_abort_witness :
    build (fun _ => true) = (stageOrder, true) ∧
      Stage.run_build_command ∉
        (build (fun s => match s with
          | Stage.run_configuration_script => false
          | _ => true)).1 :=
  ⟨build_stage_order_and_abort.1 (fun _ => true) (fun _ => rfl),
   build_stage_order_and_abort.2.2
     (fun s => match s with
       | Stage.run_configuration_script => false
       | _ => true) rfl⟩

/-- A filesystem modelled as an association list from path (components) to
file contents; later entries are shadowed by earlier ones. -/
def Fs : Type := List (List String × String)

/-- `Path.exists()` on the modelled filesystem. -/
def fsExists (fs : Fs) (p : List String) : Bool :=
  fs.any (fun e => e.1 == p)

/-- Read a file's contents on the modelled filesystem. -/
def fsRead (fs : Fs) (p : List String) : Option String :=
  (fs.find? (fun e => e.1 == p)).map (fun e => e.2)

/-- Write a file on the modelled filesystem. -/
def fsWrite (fs : Fs) (p : List String) (c : String) : Fs :=
  (p, c) :: fs

/-- `Package.fetch_source_archives`: for each `(filename, url)` of
`source_archives`, skip when `source_downloads_base / filename` already
exists, otherwise stream the download (`net url`) into that file. Returns
the resulting filesystem and the list of URLs actually requested over the
network, in order. -/
def fetch_source_archives (net : String → String) (base : List String) :
    List (String × String) → Fs → Fs × List String
  | [], fs => (fs, [])
  | (filename, url) :: rest, fs =>
    if fsExists fs (base ++ [filename]) then
      fetch_source_archives net base rest fs
    else
      let fs' := fsWrite fs (base ++ [filename]) (net url)
      let r := fetch_source_archives net base rest fs'
      (r.1, url :: r.2)

/-- Existing files keep existing across a fetch run. -/
theorem fetch_preserves_exists (net : String → String) (base : List String) :
    ∀ (archives : List (String × String)) (fs : Fs) (p : List String),
      fsExists fs p = true →
      fsExists (fetch_source_archives net base archives fs).1 p = true := by
  intro archives
  induction archives with
  | nil => intro fs p h; exact h
  | cons a rest ih =>
    intro fs p h
    by_cases he : fsExists fs (base ++ [a.1]) = true
    · simpa [fetch_source_archives, he] using ih fs p h
    · have he' : fsExists fs (base ++ [a.1]) = false := by
        cases hh : fsExists fs (base ++ [a.1])
        · rfl
        · exact absurd hh he
      have hw : fsExists (fsWrite fs (base ++ [a.1]) (net a.2)) p = true := by
        simp [fsExists, fsWrite] at h ⊢
        exact Or.inr h
      simpa [fetch_source_archives, he'] using
        ih (fsWrite fs (base ++ [a.1]) (net a.2)) p hw

/-- Existing files keep their contents across a fetch run: the only writes
are to paths that did not exist at the time of the write. -/
theorem fetch_preserves_contents (net : String → String) (base : List String) :
    ∀ (archives : List (String × String)) (fs : Fs) (p : List String),
      fsExists fs p = true →
      fsRead (fetch_source_archives net base archives fs).1 p = fsRead fs p := by
  intro archives
  induction archives with
  | nil => intro fs p _; rfl
  | cons a rest ih =>
    intro fs p h
    by_cases he : fsExists fs (base ++ [a.1]) = true
    · simpa [fetch_source_archives, he] using ih fs p h
    · have he' : fsExists fs (base ++ [a.1]) = false := by
        cases hh : fsExists fs (base ++ [a.1])
        · rfl
        · exact absurd hh he
      have hne : (base ++ [a.1]) ≠ p := by
        intro hh
        rw [hh] at he'
        rw [h] at he'
        exact Bool.noConfusion he'
      have hw : fsExists (fsWrite fs (base ++ [a.1]) (net a.2)) p = true := by
        simp [fsExists, fsWrite] at h ⊢
        exact Or.inr h
      have hr : fsRead (fsWrite fs (base ++ [a.1]) (net a.2)) p = fsRead fs p := by
        simp [fsRead, fsWrite, hne]
      calc fsRead (fetch_source_archives net base
              ((a.1, a.2) :: rest) fs).1 p
          = fsRead (fetch_source_archives net base rest
              (fsWrite fs (base ++ [a.1]) (net a.2))).1 p := by
            simp [fetch_source_archives, he']
        _ = fsRead (fsWrite fs (base ++ [a.1]) (net a.2)) p :=
            ih (fsWrite fs (base ++ [a.1]) (net a.2)) p hw
        _ = fsRead fs p := hr

/-- After a fetch run, every declared archive file exists. -/
theorem fetch_all_exist (net : String → String) (base : List String) :
    ∀ (archives : List (String × String)) (fs : Fs) (a : String × String),
      a ∈ archives →
      fsExists (fetch_source_archives net base archives fs).1
        (base ++ [a.1]) = true := by
  intro archives
  induction archives with
  | nil => intro fs a h; simp at h
  | cons b rest ih =>
    intro fs a h
    by_cases he : fsExists fs (base ++ [b.1]) = true
    · rcases List.mem_cons.mp h with h1 | h1
      · subst h1
        simpa [fetch_source_archives, he] using
          fetch_preserves_exists net base rest fs (base ++ [a.1]) he
      · simpa [fetch_source_archives, he] using ih fs a h1
    · have he' : fsExists fs (base ++ [b.1]) = false := by
        cases hh : fsExists fs (base ++ [b.1])
        · rfl
        · exact absurd hh he
      have hw : fsExists (fsWrite fs (base ++ [b.1]) (net b.2))
          (base ++ [b.1]) = true := by
        simp [fsExists, fsWrite]
      rcases List.mem_cons.mp h with h1 | h1
      · subst h1
        simpa [fetch_source_archives, he'] using
          fetch_preserves_exists net base rest
            (fsWrite fs (base ++ [a.1]) (net a.2)) (base ++ [a.1]) hw
      · simpa [fetch_source_archives, he'] using
          ih (fsWrite fs (base ++ [b.1]) (net b.2)) a h1

/-- A fetch run over archives whose files all exist requests nothing and
leaves the filesystem untouched. -/
theorem fetch_all_present_no_requests (net : String → String) (base : List String) :
    ∀ (archives : List (String × String)) (fs : Fs),
      (∀ a ∈ archives, fsExists fs (base ++ [a.1]) = true) →
      fetch_source_archives net base archives fs = (fs, []) := by
  intro archives
  induction archives with
  | nil => intro fs _; rfl
  | cons b rest ih =>
    intro fs h
    have hb : fsExists fs (base ++ [b.1]) = true := h b (List.mem_cons_self b rest)
    have hrest : ∀ a ∈ rest, fsExists fs (base ++ [a.1]) = true :=
      fun a ha => h a (List.mem_cons_of_mem b ha)
    simpa [fetch_source_archives, hb] using ih fs hrest

/-- C8: `fetch_source_archives` skips (no network request, file contents
untouched) every entry whose downloads-directory file already exists and
downloads the rest; when every declared file exists it does nothing at all;
and re-running it right after a run performs no network I/O. -/
theorem fetch_source_archives_skip_and_idempotent :
    (∀ (net : String → String) (base : List String)
        (archives : List (String × String)) (fs : Fs) (p : List String),
        fsExists fs p = true →
        fsRead (fetch_source_archives net base archives fs).1 p = fsRead fs p) ∧
      (∀ (net : String → String) (base : List String)
          (archives : List (String × String)) (fs : Fs),
        (∀ a ∈ archives, fsExists fs (base ++ [a.1]) = true) →
        fetch_source_archives net base archives fs = (fs, [])) ∧
      (∀ (net : String → String) (base : List String)
          (archives : List (String × String)) (fs : Fs),
        (fetch_source_archives net base archives
          (fetch_source_archives net base archives fs).1).2 = []) := by
  refine ⟨fun net base archives fs p h =>
    fetch_preserves_contents net base archives fs p h,
    fun net base archives fs h =>
      fetch_all_present_no_requests net base archives fs h, ?_⟩
  intro net base archives fs
  have h : ∀ a ∈ archives,
      fsExists (fetch_source_archives net base archives fs).1
        (base ++ [a.1]) = true :=
    fun a ha => fetch_all_exist net base archives fs a ha
  rw [fetch_all_present_no_requests net base archives
    (fetch_source_archives net base archives fs).1 h]

/-- Witness for C8: one cached archive entry; the run requests nothing and
the cached contents survive. -/
theorem fetch_source_archives_skip_and_idempotent_witness :
    fsRead (fetch_source_archives (fun _ => "fresh") ["dl"]
        [("qwt-6.1.4.zip", "http://example.com/qwt.zip")]
        [(["dl", "qwt-6.1.4.zip"], "cached")]).1 ["dl", "qwt-6.1.4.zip"] =
      fsRead [(["dl", "qwt-6.1.4.zip"], "cached")] ["dl", "qwt-6.1.4.zip"] ∧
    fetch_source_archives (fun _ => "fresh") ["dl"]
        [("qwt-6.1.4.zip", "http://example.com/qwt.zip")]
        [(["dl", "qwt-6.1.4.zip"], "cached")] =
      ([(["dl", "qwt-6.1.4.zip"], "cached")], []) :=
  ⟨fetch_source_archives_skip_and_idempotent.1 (fun _ => "fresh") ["dl"]
      [("qwt-6.1.4.zip", "http://example.com/qwt.zip")]
      [(["dl", "qwt-6.1.4.zip"], "cached")] ["dl", "qwt-6.1.4.zip"] rfl,
   fetch_source_archives_skip_and_idempotent.2.1 (fun _ => "fresh") ["dl"]
      [("qwt-6.1.4.zip", "http://example.com/qwt.zip")]
      [(["dl", "qwt-6.1.4.zip"], "cached")]
      (by intro a ha; simp at ha; subst ha; rfl)⟩

/-- The tar invocation of `Package.create_archive`:
`tar [--force-local] -zcf <outDir>/<outName> <member>` run with the working
directory `cwd`. `--force-local` is absent from the first attempt and
inserted at index 1 for the Windows retry. -/
structure ArchiveCmd where
  forceLocal : Bool
  outDir : List String
  outName : String
  member : String
  cwd : List String
deriving DecidableEq, Repr

/-- Outcome of `create_archive`: normal return, a propagating
`CalledProcessError`, or the `TypeError` propagating out of
`output_base_name` when `platform` is `None`. -/
inductive AOutcome where
  | success
  | processError
  | typeError
deriving DecidableEq, Repr

/-- The directory `create_archive` writes the archive to:
`BUILD_ARTIFACTSTAGINGDIRECTORY` when that variable is set (an
environment-supplied path, modelled as a single component), otherwise
`source_builds_base`. -/
def archive_output_directory (s : SysEnv) : List String :=
  match envLookup s.env "BUILD_ARTIFACTSTAGINGDIRECTORY" with
  | some d => [d]
  | none => source_builds_base s

/-- `Package.create_archive`: runs
`tar -zcf <archive_output_directory>/<output_base_name>.tar.gz <member>`
from the working directory `toolbase / name`, where `<member>` is
`install_directory.relative_to(toolbase / name)`, i.e. the single component
`output_base_name`. On a `CalledProcessError`: re-raised as is off Windows;
on Windows the command is retried exactly once with `--force-local`
inserted at index 1. Returns the commands actually executed and the
outcome. -/
def create_archive (p : Package) (s : SysEnv) (ok : ArchiveCmd → Bool) :
    List ArchiveCmd × AOutcome :=
  match output_base_name p s with
  | Except.error _ => ([], AOutcome.typeError)
  | Except.ok b =>
    let c : ArchiveCmd :=
      { forceLocal := false
        outDir := archive_output_directory s
        outName := b ++ ".tar.gz"
        member := b
        cwd := toolbase s ++ [p.name] }
    if ok c then ([c], AOutcome.success)
    else if !windows s then ([c], AOutcome.processError)
    else
      let c' := { c with forceLocal := true }
      ([c, c'], if ok c' then AOutcome.success else AOutcome.processError)

/-- The first tar command `create_archive` issues for base name `b`:
`tar -zcf <archive_output_directory>/<b>.tar.gz <b>` with working directory
`toolbase / name` (the member path is `install_directory` relative to
`toolbase / name`, which is the single component `b`). -/
def first_archive_command (p : Package) (s : SysEnv) (b : String) : ArchiveCmd :=
  { forceLocal := false
    outDir := archive_output_directory s
    outName := b ++ ".tar.gz"
    member := b
    cwd := toolbase s ++ [p.name] }

/-- C9: when `output_base_name` is the string `b`, `create_archive` first
runs `tar -zcf` (no force-local) from the `toolbase / name` working
directory producing `b ++ ".tar.gz"` in `BUILD_ARTIFACTSTAGINGDIRECTORY`
when set and in `source_builds_base` otherwise; on success that is the only
command; a failure propagates unchanged off Windows; and on Windows a
failure triggers exactly one retry of the same command with `--force-local`
inserted. -/
theorem create_archive_command_and_windows_retry (p : Package) (s : SysEnv)
    (ok : ArchiveCmd → Bool) (b : String)
    (hb : output_base_name p s = Except.ok b) :
    (∀ d, envLookup s.env "BUILD_ARTIFACTSTAGINGDIRECTORY" = some d →
        archive_output_directory s = [d]) ∧
      (envLookup s.env "BUILD_ARTIFACTSTAGINGDIRECTORY" = none →
        archive_output_directory s = source_builds_base s) ∧
      (create_archive p s ok).1.head? = some (first_archive_command p s b) ∧
      (ok (first_archive_command p s b) = true →
        create_archive p s ok =
          ([first_archive_command p s b], AOutcome.success)) ∧
      (ok (first_archive_command p s b) = false → windows s = false →
        create_archive p s ok =
          ([first_archive_command p s b], AOutcome.processError)) ∧
      (ok (first_archive_command p s b) = false → windows s = true →
        create_archive p s ok =
          ([first_archive_command p s b,
            { first_archive_command p s b with forceLocal := true }],
            if ok { first_archive_command p s b with forceLocal := true } = true
            then AOutcome.success else AOutcome.processError)) := by
  refine ⟨fun d hd => by simp [archive_output_directory, hd],
    fun hd => by simp [archive_output_directory, hd], ?_, ?_, ?_, ?_⟩
  · by_cases hok : ok (first_archive_command p s b) = true
    · simp only [first_archive_command] at hok
      simp [create_archive, hb, first_archive_command, hok]
    · simp only [first_archive_command] at hok
      by_cases hw : windows s = true
      · simp [create_archive, hb, first_archive_command, hok, hw]
      · simp [create_archive, hb, first_archive_command, hok, hw]
  · intro hok
    simp only [first_archive_command] at hok
    simp [create_archive, hb, first_archive_command, hok]
  · intro hok hw
    simp only [first_archive_command] at hok
    simp [create_archive, hb, first_archive_command, hok, hw]
  · intro hok hw
    simp only [first_archive_command] at hok
    simp [create_archive, hb, first_archive_command, hok, hw]

/-- A Windows environment with `BUILD_ARTIFACTSTAGINGDIRECTORY` set. -/
def winStagingEnv : SysEnv :=
  { sys_platform := "win32"
    env := [("BUILD_ARTIFACTSTAGINGDIRECTORY", "staging")]
    centos_release_exists := false
    debian_version_exists := false
    lsb_release_is_ubuntu := false
    centos_major_version_str := ""
    ubuntu_version_str := "" }

/-- Witness for C9: on Windows with the staging directory set and an oracle
under which only the force-local invocation succeeds, `create_archive` runs
the plain command, then the force-local retry, and succeeds; the archive
goes to the staging directory. -/
theorem create_archive_command_and_windows_retry_witness :
    create_archive qwtPackage winStagingEnv (fun c => c.forceLocal) =
      ([first_archive_command qwtPackage winStagingEnv
          "qwt-6.1.4-do-not-use-me-developer-version-win32",
        { first_archive_command qwtPackage winStagingEnv
            "qwt-6.1.4-do-not-use-me-developer-version-win32" with
            forceLocal := true }],
        AOutcome.success) ∧
      archive_output_directory winStagingEnv = ["staging"] := by
  have h := create_archive_command_and_windows_retry qwtPackage winStagingEnv
    (fun c => c.forceLocal) "qwt-6.1.4-do-not-use-me-developer-version-win32" rfl
  refine ⟨?_, h.1 "staging" rfl⟩
  have h6 := h.2.2.2.2.2 rfl rfl
  rw [h6]
  rfl
